import Mathlib

/-!
Verification of the cppopt Newton-Raphson solver and its 2-d example
(`examples/2d_newtonraphson.cpp`).

Embedding choices:
* `cppopt::Scalar` (a floating-point type) is embedded as `ℚ`, the exact
  idealisation of the float arithmetic; tolerance comparisons are exact.
* `cppopt::Matrix` (a dynamically sized Eigen matrix) is embedded in two
  ways: a typed form `Matrix (Fin n) (Fin m) ℚ` used for the numerical
  claims, and an untyped form `DMat` carrying run-time dimensions, used for
  the dimensionality-invariant claims.
* Eigen's Euclidean `norm()` is a square root, which is irrational; every
  comparison `v.norm() ⋈ c` in the code is embedded as the equivalent
  comparison of the squared norm `sqNorm v ⋈ c^2` (for `c ≥ 0`).
* The header `include/cppopt/newton_raphson.h` is not among the sources;
  the step `newtonRaphson` is modelled from the spec (section 4.2).
-/

/-- Scalar type of cppopt (exact idealisation of the floating-point type). -/
abbrev Scalar : Type := ℚ

/-- Column vector of dimension n (an n×1 `cppopt::Matrix`). -/
abbrev Vec (n : ℕ) : Type := Matrix (Fin n) (Fin 1) Scalar

/-- Square matrix of dimension n×n (an n×n `cppopt::Matrix`). -/
abbrev Sqm (n : ℕ) : Type := Matrix (Fin n) (Fin n) Scalar

/-- Status code returned by a solver step: success, or numerical
degeneracy (singular Hessian).  The spec leaves room for further failure
kinds; none is needed by the solver modelled here. -/
inductive ResultInfo : Type where
  | SUCCESS : ResultInfo
  | DEGENERATE : ResultInfo
deriving DecidableEq, Repr

/-- Modelled from the spec: the Newton-Raphson step of
`include/cppopt/newton_raphson.h`, which is absent from the sources
(only its caller `examples/2d_newtonraphson.cpp` is present).  Spec 4.2:
evaluate `g = df(x)`, evaluate `H = ddf(x)`, solve `H · Δx = -g`
(degeneracy status if `H` is singular — in exact arithmetic the
machine-epsilon-scaled tolerance on the determinant is zero), update
`x ← x + Δx`, return success.  The C++ mutates `x` in place; here the
updated vector is returned alongside the status. -/
def newtonRaphson (df : Vec n → Vec n) (ddf : Vec n → Sqm n) (x : Vec n) :
    ResultInfo × Vec n :=
  let g := df x
  let H := ddf x
  if H.det = 0 then
    (ResultInfo.DEGENERATE, x)
  else
    (ResultInfo.SUCCESS, x + (H.det)⁻¹ • (H.adjugate * (-g)))

/-- Gradient callable of the example (`df` in `2d_newtonraphson.cpp`):
`d(0) = 2*x(0) + 2; d(1) = 2*x(1) + 8` on a fresh 2×1 matrix. -/
def df (x : Vec 2) : Vec 2 :=
  Matrix.of fun i _ => if i = 0 then 2 * x 0 0 + 2 else 2 * x 1 0 + 8

/-- Hessian callable of the example (`ddf` in `2d_newtonraphson.cpp`):
`d(0,0) = 2; d(0,1) = 0; d(1,0) = 0; d(1,1) = 2` on a fresh 2×2 matrix,
ignoring its argument. -/
def ddf (_ : Vec 2) : Sqm 2 :=
  Matrix.of fun i j =>
    if i = 0 ∧ j = 0 then 2
    else if i = 0 ∧ j = 1 then 0
    else if i = 1 ∧ j = 0 then 0
    else 2

/-- Start solution of the example: `x(0) = -3; x(1) = -2`. -/
def x0 : Vec 2 :=
  Matrix.of fun i _ => if i = 0 then -3 else -2

/-- Squared Euclidean norm of a column vector (`v.norm()` squared). -/
def sqNorm (v : Vec n) : Scalar :=
  ∑ i, (v i 0) ^ 2

/-- Convergence threshold of the example loop (`0.001f`, idealised). -/
def tol : Scalar := 1 / 1000

/-- Continuation condition of the example loop,
`ri == cppopt::SUCCESS && df(x).norm() > 0.001f`, with C++ short-circuit
evaluation of `&&`.  The second component counts how many times the
condition evaluates the gradient `df`. -/
def loopCond (ri : ResultInfo) (x : Vec 2) : Bool × ℕ :=
  if ri = ResultInfo.SUCCESS then
    (decide (tol ^ 2 < sqNorm (df x)), 1)
  else
    (false, 0)

/-- Fuel-indexed embedding of the example's `while` loop: while the
continuation condition holds, perform one `newtonRaphson` step.  Returns
the final status, the final parameter vector, and the number of step
invocations performed. -/
def runLoop : ℕ → ResultInfo → Vec 2 → ResultInfo × Vec 2 × ℕ
  | 0, ri, x => (ri, x, 0)
  | Nat.succ fuel, ri, x =>
    if (loopCond ri x).1 then
      let p := newtonRaphson df ddf x
      let r := runLoop fuel p.1 p.2
      (r.1, r.2.1, r.2.2 + 1)
    else
      (ri, x, 0)

/-- The optimum of the example objective, `(-1, -4)`. -/
def xStar : Vec 2 :=
  Matrix.of fun i _ => if i = 0 then -1 else -4

lemma ddf_eq (x : Vec 2) : ddf x = !![2, 0; 0, 2] := by
  ext i j
  fin_cases i <;> fin_cases j <;> simp [ddf]

lemma ddf_det (x : Vec 2) : (ddf x).det = 4 := by
  rw [ddf_eq, Matrix.det_fin_two_of]
  norm_num

lemma step_eq (x : Vec 2) : newtonRaphson df ddf x = (ResultInfo.SUCCESS, xStar) := by
  have hd : (ddf x).det = 4 := ddf_det x
  simp only [newtonRaphson]
  rw [if_neg (by rw [hd]; norm_num)]
  simp only [Prod.mk.injEq, true_and]
  rw [hd, ddf_eq, Matrix.adjugate_fin_two_of]
  ext i j
  fin_cases i <;> fin_cases j <;>
    simp [df, xStar, Matrix.mul_apply, Fin.sum_univ_two, Matrix.smul_apply,
      Matrix.vecHead, Matrix.vecTail] <;>
    ring

lemma df_xStar : df xStar = 0 := by
  ext i j
  fin_cases i <;> fin_cases j <;> norm_num [df, xStar]

lemma sqNorm_df_xStar : sqNorm (df xStar) = 0 := by
  rw [df_xStar]
  simp [sqNorm]

/-- Untyped matrix carrying run-time dimensions, mirroring the dynamically
sized `cppopt::Matrix` (an Eigen matrix with run-time `rows()`/`cols()`).
Entries outside the dimensions are irrelevant to the embedding. -/
structure DMat : Type where
  rows : ℕ
  cols : ℕ
  entry : ℕ → ℕ → Scalar

/-- Entrywise negation, `-A` (dimensions of `A`). -/
def dNeg (A : DMat) : DMat :=
  ⟨A.rows, A.cols, fun i j => -(A.entry i j)⟩

/-- Entrywise sum, `A + B`; Eigen requires equal dimensions and the result
takes them from the left operand. -/
def dAdd (A B : DMat) : DMat :=
  ⟨A.rows, A.cols, fun i j => A.entry i j + B.entry i j⟩

/-- Scalar multiple, `c * A`. -/
def dSmul (c : Scalar) (A : DMat) : DMat :=
  ⟨A.rows, A.cols, fun i j => c * A.entry i j⟩

/-- Matrix product, `A * B`; the result is `A.rows × B.cols`. -/
def dMul (A B : DMat) : DMat :=
  ⟨A.rows, B.cols, fun i j => ∑ k ∈ Finset.range A.cols, A.entry i k * B.entry k j⟩

/-- Matrix obtained by deleting row `r` and column `c`. -/
def dMinor (A : DMat) (r c : ℕ) : DMat :=
  ⟨A.rows - 1, A.cols - 1, fun i j =>
    A.entry (if i < r then i else i + 1) (if j < c then j else j + 1)⟩

/-- Determinant of the leading `n × n` block, by Laplace expansion along
the first row. -/
def dDetAux : ℕ → DMat → Scalar
  | 0, _ => 1
  | Nat.succ n, A =>
    ∑ j ∈ Finset.range (n + 1), (-1 : Scalar) ^ j * A.entry 0 j * dDetAux n (dMinor A 0 j)

/-- Determinant of a square untyped matrix. -/
def dDet (A : DMat) : Scalar := dDetAux A.rows A

/-- Adjugate (transposed cofactor matrix) of a square untyped matrix. -/
def dAdjugate (A : DMat) : DMat :=
  ⟨A.rows, A.rows, fun i j => (-1 : Scalar) ^ (i + j) * dDetAux (A.rows - 1) (dMinor A j i)⟩

/-- Modelled from the spec: the Newton-Raphson step (spec 4.2) on the
untyped dimension-carrying matrices, with the linear solve
`H · Δx = -g` realised by Cramer's rule.  Mirrors `newtonRaphson` above;
the header `include/cppopt/newton_raphson.h` is absent from the sources. -/
def dNewtonRaphson (df ddf : DMat → DMat) (x : DMat) : ResultInfo × DMat :=
  let g := df x
  let H := ddf x
  if dDet H = 0 then
    (ResultInfo.DEGENERATE, x)
  else
    (ResultInfo.SUCCESS, dAdd x (dSmul (dDet H)⁻¹ (dMul (dAdjugate H) (dNeg g))))

/-- Gradient callable of the example on untyped matrices. -/
def dDf (x : DMat) : DMat :=
  ⟨2, 1, fun i _ => if i = 0 then 2 * x.entry 0 0 + 2 else 2 * x.entry 1 0 + 8⟩

/-- Hessian callable of the example on untyped matrices. -/
def dDdf (_ : DMat) : DMat :=
  ⟨2, 2, fun i j =>
    if i = 0 ∧ j = 0 then 2
    else if i = 0 ∧ j = 1 then 0
    else if i = 1 ∧ j = 0 then 0
    else 2⟩

/-- Repeated application of the step on untyped matrices, keeping the
parameter vector of the last successful update. -/
def dIterate (df ddf : DMat → DMat) : ℕ → DMat → DMat
  | 0, x => x
  | Nat.succ k, x => dIterate df ddf k (dNewtonRaphson df ddf x).2

lemma dNewtonRaphson_rows (df ddf : DMat → DMat) (x : DMat) :
    ((dNewtonRaphson df ddf x).2).rows = x.rows ∧
    ((dNewtonRaphson df ddf x).2).cols = x.cols := by
  unfold dNewtonRaphson
  by_cases h : dDet (ddf x) = 0 <;> simp [h, dAdd]

lemma dIterate_rows (df ddf : DMat → DMat) (k : ℕ) (x : DMat) :
    (dIterate df ddf k x).rows = x.rows ∧ (dIterate df ddf k x).cols = x.cols := by
  induction k generalizing x with
  | zero => exact ⟨rfl, rfl⟩
  | succ k ih =>
    have h := dNewtonRaphson_rows df ddf x
    have h2 := ih (dNewtonRaphson df ddf x).2
    simp only [dIterate]
    exact ⟨h2.1.trans h.1, h2.2.trans h.2⟩

lemma newton_status_of_det_ne {n : ℕ} (df' : Vec n → Vec n) (ddf' : Vec n → Sqm n)
    (x : Vec n) (h : (ddf' x).det ≠ 0) :
    (newtonRaphson df' ddf' x).1 = ResultInfo.SUCCESS := by
  simp only [newtonRaphson]
  rw [if_neg h]

lemma newton_update_of_det_ne {n : ℕ} (df' : Vec n → Vec n) (ddf' : Vec n → Sqm n)
    (x : Vec n) (h : (ddf' x).det ≠ 0) :
    (newtonRaphson df' ddf' x).2 =
      x + ((ddf' x).det)⁻¹ • ((ddf' x).adjugate * (-(df' x))) := by
  simp only [newtonRaphson]
  rw [if_neg h]

lemma newton_solves {n : ℕ} (df' : Vec n → Vec n) (ddf' : Vec n → Sqm n)
    (x : Vec n) (h : (ddf' x).det ≠ 0) :
    ddf' x * ((newtonRaphson df' ddf' x).2 - x) = -(df' x) := by
  rw [newton_update_of_det_ne df' ddf' x h, add_sub_cancel_left, Matrix.mul_smul,
    ← Matrix.mul_assoc, Matrix.mul_adjugate, Matrix.smul_mul, Matrix.one_mul,
    smul_smul, inv_mul_cancel₀ h, one_smul]

/-- Gradient of the general quadratic objective with constant Hessian `H`
and linear coefficient `b` (the class of objectives the spec's
idempotence property quantifies over; the example is `H = [[2,0],[0,2]]`,
`b = (2,8)`). -/
def quadGrad {n : ℕ} (H : Sqm n) (b : Vec n) : Vec n → Vec n :=
  fun y => H * y + b

lemma quadGrad_step_zero {n : ℕ} (H : Sqm n) (b : Vec n) (hH : H.det ≠ 0) (x : Vec n) :
    quadGrad H b ((newtonRaphson (quadGrad H b) (fun _ => H) x).2) = 0 := by
  obtain ⟨x1, hx1⟩ : ∃ y, (newtonRaphson (quadGrad H b) (fun _ => H) x).2 = y := ⟨_, rfl⟩
  have hs : H * ((newtonRaphson (quadGrad H b) (fun _ => H) x).2 - x) =
      -(quadGrad H b x) := newton_solves (quadGrad H b) (fun _ => H) x hH
  rw [hx1] at hs ⊢
  have h2 : H * x1 - H * x = -(H * x + b) := by
    rw [← Matrix.mul_sub]
    simpa [quadGrad] using hs
  have h3 : H * x1 = -(H * x + b) + H * x := sub_eq_iff_eq_add.mp h2
  simp only [quadGrad, h3]
  abel

lemma sqNorm_df_x0 : sqNorm (df x0) = 32 := by
  norm_num [sqNorm, df, x0, Fin.sum_univ_two]

lemma runLoop_of_not_success (fuel : ℕ) (ri : ResultInfo) (x : Vec 2)
    (h : ri ≠ ResultInfo.SUCCESS) : runLoop fuel ri x = (ri, x, 0) := by
  cases fuel with
  | zero => rfl
  | succ fuel => simp [runLoop, loopCond, h]

lemma runLoop_of_small (fuel : ℕ) (ri : ResultInfo) (x : Vec 2)
    (h : sqNorm (df x) ≤ tol ^ 2) : runLoop fuel ri x = (ri, x, 0) := by
  cases fuel with
  | zero => rfl
  | succ fuel =>
    have hc : (loopCond ri x).1 = false := by
      by_cases hri : ri = ResultInfo.SUCCESS
      · simp only [loopCond, if_pos hri]
        simpa using not_lt.mpr h
      · simp [loopCond, hri]
    simp [runLoop, hc]

lemma runLoop_status (fuel : ℕ) (x : Vec 2) :
    (runLoop fuel ResultInfo.SUCCESS x).1 = ResultInfo.SUCCESS := by
  induction fuel generalizing x with
  | zero => rfl
  | succ fuel ih =>
    by_cases hc : (loopCond ResultInfo.SUCCESS x).1
    · simp only [runLoop, hc, if_true]
      rw [step_eq x]
      exact ih xStar
    · simp [runLoop, hc]

lemma runLoop_succ_step (fuel : ℕ) (x : Vec 2) (h : tol ^ 2 < sqNorm (df x)) :
    runLoop (fuel + 1) ResultInfo.SUCCESS x = (ResultInfo.SUCCESS, xStar, 1) := by
  have hc : (loopCond ResultInfo.SUCCESS x).1 = true := by
    simp only [loopCond, if_pos rfl]
    simpa using h
  have h0 : sqNorm (df xStar) ≤ tol ^ 2 := by
    rw [sqNorm_df_xStar]
    positivity
  simp only [runLoop, hc, if_true]
  rw [step_eq x]
  rw [runLoop_of_small fuel ResultInfo.SUCCESS xStar h0]

/-- C1: for the example's quadratic objective with its gradient and constant
Hessian callables, a single `newtonRaphson` step from any starting point
sets `x` to `(-1, -4)` (exactly, in the exact-arithmetic embedding) and
returns success. -/
theorem newton_single_step_optimum :
    (∀ x : Vec 2, newtonRaphson df ddf x = (ResultInfo.SUCCESS, xStar)) ∧
    xStar 0 0 = -1 ∧ xStar 1 0 = -4 :=
  ⟨step_eq, rfl, rfl⟩

/-- C2: if the supplied Hessian callable returns a singular matrix at the
current point (determinant zero — the exact-arithmetic form of the
machine-epsilon-scaled tolerance), the step returns the degeneracy status
on that very call and not success, leaving `x` unchanged. -/
theorem newton_singular_hessian_degenerate {n : ℕ} (df' : Vec n → Vec n)
    (ddf' : Vec n → Sqm n) (x : Vec n) (h : (ddf' x).det = 0) :
    newtonRaphson df' ddf' x = (ResultInfo.DEGENERATE, x) ∧
    (newtonRaphson df' ddf' x).1 ≠ ResultInfo.SUCCESS := by
  have he : newtonRaphson df' ddf' x = (ResultInfo.DEGENERATE, x) := by
    simp only [newtonRaphson]
    rw [if_pos h]
  refine ⟨he, ?_⟩
  rw [he]
  simp

theorem newton_singular_hessian_degenerate_witness :
    ((0 : Sqm 2)).det = 0 ∧
    newtonRaphson df (fun _ => (0 : Sqm 2)) x0 = (ResultInfo.DEGENERATE, x0) :=
  ⟨Matrix.det_zero ⟨0⟩,
   (newton_singular_hessian_degenerate df (fun _ => (0 : Sqm 2)) x0 (Matrix.det_zero ⟨0⟩)).1⟩

/-- C3: one step from the example's start `(-3, -2)` lands within `0.001`
of `(-1, -4)` in each coordinate, and the gradient at the result has
Euclidean norm below `0.001` (stated on the squared norm). -/
theorem newton_example_start_accuracy :
    |(newtonRaphson df ddf x0).2 0 0 - (-1)| < 1 / 1000 ∧
    |(newtonRaphson df ddf x0).2 1 0 - (-4)| < 1 / 1000 ∧
    sqNorm (df (newtonRaphson df ddf x0).2) < (1 / 1000) ^ 2 := by
  rw [step_eq x0]
  refine ⟨?_, ?_, ?_⟩
  · norm_num [xStar, Matrix.of_apply]
  · norm_num [xStar, Matrix.of_apply]
  · show sqNorm (df xStar) < (1 / 1000) ^ 2
    rw [sqNorm_df_xStar]
    norm_num

/-- C4: on a non-singular Hessian the step returns success, the update is
`x + Δx` with `Δx` computed from the gradient `g = df(x)` and Hessian
`H = ddf(x)` evaluated at the current point, and `Δx` solves the Newton
system `H · Δx = -g`. -/
theorem newton_step_success_contract {n : ℕ} (df' : Vec n → Vec n)
    (ddf' : Vec n → Sqm n) (x : Vec n) (h : (ddf' x).det ≠ 0) :
    (newtonRaphson df' ddf' x).1 = ResultInfo.SUCCESS ∧
    (newtonRaphson df' ddf' x).2 =
      x + ((ddf' x).det)⁻¹ • ((ddf' x).adjugate * (-(df' x))) ∧
    ddf' x * ((newtonRaphson df' ddf' x).2 - x) = -(df' x) :=
  ⟨newton_status_of_det_ne df' ddf' x h, newton_update_of_det_ne df' ddf' x h,
   newton_solves df' ddf' x h⟩

theorem newton_step_success_contract_witness :
    (ddf x0).det ≠ 0 ∧
    ((newtonRaphson df ddf x0).1 = ResultInfo.SUCCESS ∧
     (newtonRaphson df ddf x0).2 =
       x0 + ((ddf x0).det)⁻¹ • ((ddf x0).adjugate * (-(df x0))) ∧
     ddf x0 * ((newtonRaphson df ddf x0).2 - x0) = -(df x0)) :=
  ⟨by rw [ddf_det]; norm_num,
   newton_step_success_contract df ddf x0 (by rw [ddf_det]; norm_num)⟩

/-- C5: for any constant-Hessian quadratic objective with non-singular
Hessian, the step is idempotent after the first call: a second step from
the point produced by the first returns success and leaves the point
unchanged (the computed Newton step is the zero vector). -/
theorem newton_quadratic_idempotent {n : ℕ} (H : Sqm n) (b : Vec n)
    (hH : H.det ≠ 0) (x : Vec n) :
    (newtonRaphson (quadGrad H b) (fun _ => H)
        ((newtonRaphson (quadGrad H b) (fun _ => H) x).2)).1 = ResultInfo.SUCCESS ∧
    (newtonRaphson (quadGrad H b) (fun _ => H)
        ((newtonRaphson (quadGrad H b) (fun _ => H) x).2)).2 =
      (newtonRaphson (quadGrad H b) (fun _ => H) x).2 := by
  constructor
  · exact newton_status_of_det_ne _ _ _ hH
  · rw [newton_update_of_det_ne _ _ _ hH, quadGrad_step_zero H b hH x]
    simp

theorem newton_quadratic_idempotent_witness :
    (!![2, 0; 0, 2] : Sqm 2).det ≠ 0 ∧
    ((newtonRaphson (quadGrad !![2, 0; 0, 2] !![2; 8]) (fun _ => !![2, 0; 0, 2])
        ((newtonRaphson (quadGrad !![2, 0; 0, 2] !![2; 8])
          (fun _ => !![2, 0; 0, 2]) x0).2)).1 = ResultInfo.SUCCESS ∧
     (newtonRaphson (quadGrad !![2, 0; 0, 2] !![2; 8]) (fun _ => !![2, 0; 0, 2])
        ((newtonRaphson (quadGrad !![2, 0; 0, 2] !![2; 8])
          (fun _ => !![2, 0; 0, 2]) x0).2)).2 =
       (newtonRaphson (quadGrad !![2, 0; 0, 2] !![2; 8])
         (fun _ => !![2, 0; 0, 2]) x0).2) :=
  ⟨by norm_num [Matrix.det_fin_two_of],
   newton_quadratic_idempotent !![2, 0; 0, 2] !![2; 8]
     (by norm_num [Matrix.det_fin_two_of]) x0⟩

/-- Concrete 2×1 parameter vector used to instantiate the dimensionality
invariant. -/
def dZero : DMat := ⟨2, 1, fun _ _ => 0⟩

/-- C6: for a 2×1 parameter vector, the example's gradient callable returns
an n×1 (here 2×1) matrix, its Hessian callable returns an n×n (here 2×2)
matrix, and any number of steps leaves the dimensions of the parameter
vector unchanged. -/
theorem dims_invariant (x : DMat) (hx : x.rows = 2 ∧ x.cols = 1) (k : ℕ) :
    (dDf x).rows = x.rows ∧ (dDf x).cols = 1 ∧
    (dDdf x).rows = x.rows ∧ (dDdf x).cols = x.rows ∧
    (dIterate dDf dDdf k x).rows = x.rows ∧
    (dIterate dDf dDdf k x).cols = x.cols :=
  ⟨hx.1.symm, rfl, hx.1.symm, hx.1.symm,
   (dIterate_rows dDf dDdf k x).1, (dIterate_rows dDf dDdf k x).2⟩

theorem dims_invariant_witness :
    (dZero.rows = 2 ∧ dZero.cols = 1) ∧
    ((dDf dZero).rows = dZero.rows ∧ (dDf dZero).cols = 1 ∧
     (dDdf dZero).rows = dZero.rows ∧ (dDdf dZero).cols = dZero.rows ∧
     (dIterate dDf dDdf 5 dZero).rows = dZero.rows ∧
     (dIterate dDf dDdf 5 dZero).cols = dZero.cols) :=
  ⟨⟨rfl, rfl⟩, dims_invariant dZero ⟨rfl, rfl⟩ 5⟩

/-- C7: the example loop never invokes the step when the last status is not
success (zero step invocations, state unchanged); it never invokes the
step when the residual is at or below the tolerance; and when the status
is success and the residual exceeds the tolerance it performs exactly one
step, after which the residual (zero at the optimum) is below the
tolerance and the loop terminates. -/
theorem loop_contract (fuel : ℕ) (ri : ResultInfo) (x : Vec 2) :
    (ri ≠ ResultInfo.SUCCESS → runLoop fuel ri x = (ri, x, 0)) ∧
    (sqNorm (df x) ≤ tol ^ 2 → runLoop fuel ri x = (ri, x, 0)) ∧
    (ri = ResultInfo.SUCCESS → tol ^ 2 < sqNorm (df x) →
      runLoop (fuel + 1) ri x = (ResultInfo.SUCCESS, xStar, 1)) :=
  ⟨runLoop_of_not_success fuel ri x,
   runLoop_of_small fuel ri x,
   fun hri h => by subst hri; exact runLoop_succ_step fuel x h⟩

theorem loop_contract_witness :
    (ResultInfo.DEGENERATE ≠ ResultInfo.SUCCESS ∧
      runLoop 4 ResultInfo.DEGENERATE x0 = (ResultInfo.DEGENERATE, x0, 0)) ∧
    (tol ^ 2 < sqNorm (df x0) ∧
      runLoop 4 ResultInfo.SUCCESS x0 = (ResultInfo.SUCCESS, xStar, 1)) :=
  ⟨⟨by simp, (loop_contract 4 ResultInfo.DEGENERATE x0).1 (by simp)⟩,
   ⟨by rw [sqNorm_df_x0]; norm_num [tol],
    (loop_contract 3 ResultInfo.SUCCESS x0).2.2 rfl
      (by rw [sqNorm_df_x0]; norm_num [tol])⟩⟩

/-- C8 counterexample: when the last status is not success, the loop
condition evaluates the gradient zero times — refuting the claim that
`df(x).norm()` is checked before the status check and hence evaluated
regardless of the status. -/
theorem residual_checked_second_counterexample :
    (loopCond ResultInfo.DEGENERATE x0).2 = 0 ∧
    ¬ (∀ (ri : ResultInfo) (x : Vec 2), (loopCond ri x).2 = 1) :=
  ⟨rfl, fun hall => by simpa [loopCond] using hall ResultInfo.DEGENERATE x0⟩

/-- C8 amended: in each evaluation of the loop condition
`ri == SUCCESS && df(x).norm() > 0.001f` the status check is evaluated
first; the gradient is evaluated for the residual test exactly once when
the last status was success and not at all otherwise (short-circuit `&&`),
and the condition's value is the conjunction of the two tests. -/
theorem status_checked_before_residual (ri : ResultInfo) (x : Vec 2) :
    (loopCond ri x).2 = (if ri = ResultInfo.SUCCESS then 1 else 0) ∧
    (loopCond ri x).1 =
      (decide (ri = ResultInfo.SUCCESS) && decide (tol ^ 2 < sqNorm (df x))) := by
  cases ri <;> simp [loopCond]

/-- Reference definition, following the spec's words: the gradient
`(2·x(0) + 2, 2·x(1) + 8)` of `f(x,y) = x² + y² + 2x + 8y`. -/
def dfRef (x : Vec 2) : Vec 2 := !![2 * x 0 0 + 2; 2 * x 1 0 + 8]

/-- Reference definition, following the spec's words: the constant Hessian
`[[2, 0], [0, 2]]`. -/
def ddfRef (_ : Vec 2) : Sqm 2 := !![2, 0; 0, 2]

/-- C9: the example's callables are pure functions agreeing with their
reference definitions: `df` returns `(2·x(0) + 2, 2·x(1) + 8)` and `ddf`
returns the constant matrix `[[2, 0], [0, 2]]` for every input. -/
theorem example_callables_match_reference :
    (∀ x : Vec 2, df x = dfRef x) ∧ (∀ x : Vec 2, ddf x = ddfRef x) :=
  ⟨fun x => by ext i j; fin_cases i <;> fin_cases j <;> simp [df, dfRef],
   fun x => ddf_eq x⟩

/-- C10: the example's Hessian callable always has determinant 4 (nonzero,
so the exact-arithmetic singularity test never fires), every step with the
example's callables returns success, and the example loop only ever sees
the success status. -/
theorem example_hessian_never_degenerate :
    (∀ x : Vec 2, (ddf x).det = 4 ∧ (ddf x).det ≠ 0) ∧
    (∀ x : Vec 2, (newtonRaphson df ddf x).1 = ResultInfo.SUCCESS) ∧
    (∀ (fuel : ℕ) (x : Vec 2),
      (runLoop fuel ResultInfo.SUCCESS x).1 = ResultInfo.SUCCESS) :=
  ⟨fun x => ⟨ddf_det x, by rw [ddf_det]; norm_num⟩,
   fun x => by rw [step_eq x],
   fun fuel x => runLoop_status fuel x⟩
